import Mathlib

/-!
Verification of the grove-lcd-rgb driver specification.

The repository ships the examples (`esp32c6_basic.rs`, `esp32c6_counter.rs`,
`esp32c6_color_test.rs`, `esp32c6_i2c_scan.rs`, `esp32c6_diagnostic.rs`); the
driver core (`grove_lcd_rgb::GroveLcd`) is declared and called by them but its
source is not part of the shipped tree, so the driver operations below are
modelled from the specification (each such definition is marked
`Modelled from the spec:`). The byte-level protocol they follow (addresses,
register maps, write patterns) matches the write patterns exercised literally
in `esp32c6_diagnostic.rs`. The decimal-formatting loop of
`esp32c6_counter.rs` is shipped source and is translated directly.
-/

namespace GroveSpec

/-- A single I2C bus write attempt: target address and payload bytes.
A probe is a write with empty payload. -/
structure BusWrite where
  addr : Nat
  data : List Nat
deriving DecidableEq, Repr

/-- Modelled from the spec: the I2C transport capability (§6).  `respond`
is the bus oracle deciding whether a given write is acknowledged by the
hardware; `trace` records every attempted write in order.  A failed write
is still an attempted write and is recorded. -/
structure Bus where
  respond : BusWrite → Bool
  trace : List BusWrite

/-- One blocking write on the bus: the attempt is appended to the trace and
the oracle's answer for it is returned. -/
def Bus.write (b : Bus) (a : Nat) (d : List Nat) : Bus × Bool :=
  (⟨b.respond, b.trace ++ [⟨a, d⟩]⟩, b.respond ⟨a, d⟩)

/-- Modelled from the spec: BacklightVariant (§3), tagged enum
{Absent, V4 (address 0x62), V5 (address 0x30)}. -/
inductive BacklightVariant where
  | Absent
  | V4
  | V5
deriving DecidableEq, Repr

/-- Modelled from the spec: InitializationState (§3). -/
inductive InitializationState where
  | Uninitialized
  | Ready
  | Failed
deriving DecidableEq, Repr

/-- Modelled from the spec: the DriverError taxonomy (§7). -/
inductive DriverError where
  | NotInitialized
  | InitFailed
  | OutOfBounds
  | BusError
  | PartialColorWrite
deriving DecidableEq, Repr

/-- Text controller address, constant 0x3E (§3). -/
def LCD_ADDR : Nat := 0x3E

/-- RGB v4 backlight controller address 0x62 (§3, §6). -/
def RGB_V4_ADDR : Nat := 0x62

/-- RGB v5 backlight controller address 0x30 (§3, §6). -/
def RGB_V5_ADDR : Nat := 0x30

/-- Modelled from the spec: the Display State Machine state (§3, §4.1):
geometry, cursor, detected backlight variant and initialization status.
The `full` flag records that the last cell has been written, so that
further characters are dropped rather than wrapped past the last row
(§4.1 print: clamp, do not wrap past last row). -/
structure GroveLcd where
  columns : Nat
  rows : Nat
  col : Nat
  row : Nat
  backlight : BacklightVariant
  initState : InitializationState
  full : Bool
deriving DecidableEq, Repr

/-- Modelled from the spec: driver construction (§3): InitializationState is
Uninitialized at construction; geometry is set by `begin`. -/
def GroveLcd.new : GroveLcd :=
  ⟨0, 0, 0, 0, .Absent, .Uninitialized, false⟩

/-- Outcome of one driver operation: the new driver state, the new bus and
the returned result (`none` is success). -/
structure Outcome where
  lcd : GroveLcd
  bus : Bus
  err : Option DriverError

/-- Function-Set command byte: 8-bit bus, multi-line mode if rows > 1, 5×8
font (§4.1 begin; §6: value 0x38 for the 2-line case). -/
def functionSet (rows : Nat) : Nat :=
  if rows > 1 then 0x38 else 0x30

/-- Modelled from the spec: begin(columns, rows) (§4.1).  Sends Function-Set,
Display-ON/Cursor-OFF, Clear-Display to the text controller, stores the
geometry, resets the cursor to (0,0); then probes the V4 address first, and
only if it does not acknowledge probes the V5 address; a found variant gets
its register initialization; no backlight at all is not an error (Absent).
Any unacknowledged write to a detected chip fails initialization (Failed). -/
def GroveLcd.begin (lcd : GroveLcd) (bus : Bus) (columns rows : Nat) : Outcome :=
  let (bus1, ok1) := bus.write LCD_ADDR [0x80, functionSet rows]
  let (bus2, ok2) := bus1.write LCD_ADDR [0x80, 0x0C]
  let (bus3, ok3) := bus2.write LCD_ADDR [0x80, 0x01]
  if ok1 && ok2 && ok3 then
    let (bus4, ackV4) := bus3.write RGB_V4_ADDR []
    if ackV4 then
      let (bus5, i1) := bus4.write RGB_V4_ADDR [0x00, 0x00]
      let (bus6, i2) := bus5.write RGB_V4_ADDR [0x01, 0x00]
      let (bus7, i3) := bus6.write RGB_V4_ADDR [0x08, 0xFF]
      if i1 && i2 && i3 then
        ⟨⟨columns, rows, 0, 0, .V4, .Ready, false⟩, bus7, none⟩
      else
        ⟨{ lcd with initState := .Failed }, bus7, some .InitFailed⟩
    else
      let (bus5, ackV5) := bus4.write RGB_V5_ADDR []
      if ackV5 then
        let (bus6, j1) := bus5.write RGB_V5_ADDR [0x00, 0x07]
        let (bus7, j2) := bus6.write RGB_V5_ADDR [0x04, 0x15]
        if j1 && j2 then
          ⟨⟨columns, rows, 0, 0, .V5, .Ready, false⟩, bus7, none⟩
        else
          ⟨{ lcd with initState := .Failed }, bus7, some .InitFailed⟩
      else
        ⟨⟨columns, rows, 0, 0, .Absent, .Ready, false⟩, bus5, none⟩
  else
    ⟨{ lcd with initState := .Failed }, bus3, some .InitFailed⟩

/-- Modelled from the spec: set_rgb(r, g, b) (§4.1).  No-op success when the
backlight is Absent; for V4 three single-register writes to 0x04/0x03/0x02 at
address 0x62, for V5 three single-register writes to 0x06/0x07/0x08 at
address 0x30.  All three sub-writes are attempted even if an earlier one
fails; the aggregate result is success only if all three succeeded. -/
def GroveLcd.set_rgb (lcd : GroveLcd) (bus : Bus) (r g b : Nat) : Outcome :=
  if lcd.initState ≠ .Ready then ⟨lcd, bus, some .NotInitialized⟩
  else
    match lcd.backlight with
    | .Absent => ⟨lcd, bus, none⟩
    | .V4 =>
      let (bus1, ok1) := bus.write RGB_V4_ADDR [0x04, r]
      let (bus2, ok2) := bus1.write RGB_V4_ADDR [0x03, g]
      let (bus3, ok3) := bus2.write RGB_V4_ADDR [0x02, b]
      ⟨lcd, bus3, if ok1 && ok2 && ok3 then none else some .PartialColorWrite⟩
    | .V5 =>
      let (bus1, ok1) := bus.write RGB_V5_ADDR [0x06, r]
      let (bus2, ok2) := bus1.write RGB_V5_ADDR [0x07, g]
      let (bus3, ok3) := bus2.write RGB_V5_ADDR [0x08, b]
      ⟨lcd, bus3, if ok1 && ok2 && ok3 then none else some .PartialColorWrite⟩

/-- DDRAM row base offset for 2-line mode: row 0 base 0x00, row 1 base 0x40
(§4.1 set_cursor). -/
def rowBase (r : Nat) : Nat :=
  if r = 0 then 0x00 else 0x40

/-- Modelled from the spec: set_cursor(column, row) (§4.1).  Out-of-range
input is rejected with OutOfBounds, never clamped and never mutating any
state; in range, the set-DDRAM-address command (0x80 prefix) with the
row-major offset is sent and the cursor is updated. -/
def GroveLcd.set_cursor (lcd : GroveLcd) (bus : Bus) (c r : Nat) : Outcome :=
  if lcd.initState ≠ .Ready then ⟨lcd, bus, some .NotInitialized⟩
  else if lcd.columns ≤ c ∨ lcd.rows ≤ r then ⟨lcd, bus, some .OutOfBounds⟩
  else
    let (bus1, ok) := bus.write LCD_ADDR [0x80, 0x80 ||| (rowBase r ||| c)]
    if ok then ⟨{ lcd with col := c, row := r, full := false }, bus1, none⟩
    else ⟨lcd, bus1, some .BusError⟩

/-- Modelled from the spec: cursor auto-advance after a data write (§4.1
print): the column advances; when it reaches `columns` the cursor wraps to
the next row if one exists, and otherwise clamps at the last cell, with the
display marked full so further characters are dropped. -/
def GroveLcd.advance (lcd : GroveLcd) : GroveLcd :=
  if lcd.col + 1 < lcd.columns then { lcd with col := lcd.col + 1 }
  else if lcd.row + 1 < lcd.rows then { lcd with col := 0, row := lcd.row + 1 }
  else { lcd with full := true }

/-- Modelled from the spec: write(byte) (§4.1): a single data-write command
(0x40 prefix, then the byte) at the current cursor, with the same
addressing/cursor semantics as print for one byte; a byte beyond the last
cell is dropped silently. -/
def GroveLcd.write (lcd : GroveLcd) (bus : Bus) (byte : Nat) : Outcome :=
  if lcd.initState ≠ .Ready then ⟨lcd, bus, some .NotInitialized⟩
  else if lcd.full then ⟨lcd, bus, none⟩
  else
    let (bus1, ok) := bus.write LCD_ADDR [0x40, byte]
    if ok then ⟨lcd.advance, bus1, none⟩
    else ⟨lcd, bus1, some .BusError⟩

/-- The byte loop of print: each byte goes through `GroveLcd.write`; any bus
failure aborts the remaining bytes and surfaces the error (§4.1 print). -/
def printLoop : GroveLcd → Bus → List Nat → Outcome
  | lcd, bus, [] => ⟨lcd, bus, none⟩
  | lcd, bus, byte :: rest =>
    let o := lcd.write bus byte
    match o.err with
    | some e => ⟨o.lcd, o.bus, some e⟩
    | none => printLoop o.lcd o.bus rest

/-- Modelled from the spec: print(text) (§4.1), over the bytes of the text. -/
def GroveLcd.print (lcd : GroveLcd) (bus : Bus) (text : List Nat) : Outcome :=
  if lcd.initState ≠ .Ready then ⟨lcd, bus, some .NotInitialized⟩
  else printLoop lcd bus text

/-- Modelled from the spec: clear() (§4.1): sends the Clear-Display command
(0x01) and resets the cursor to (0,0). -/
def GroveLcd.clear (lcd : GroveLcd) (bus : Bus) : Outcome :=
  if lcd.initState ≠ .Ready then ⟨lcd, bus, some .NotInitialized⟩
  else
    let (bus1, ok) := bus.write LCD_ADDR [0x80, 0x01]
    if ok then ⟨{ lcd with col := 0, row := 0, full := false }, bus1, none⟩
    else ⟨lcd, bus1, some .BusError⟩

/-- A bus oracle for a board where every device except the V5 backlight
acknowledges: the text controller and the V4 backlight are present. -/
def onlyV4 : BusWrite → Bool := fun w => w.addr != RGB_V5_ADDR

/-- A bus oracle where every address acknowledges every write. -/
def allAck : BusWrite → Bool := fun _ => true

/-- Number of display cells still writable from the current cursor position
(0 when the display has been written up to its last cell): the cells of the
rows below the cursor plus the rest of the cursor row. -/
def GroveLcd.remaining (lcd : GroveLcd) : Nat :=
  if lcd.full then 0
  else (lcd.rows - 1 - lcd.row) * lcd.columns + (lcd.columns - lcd.col)

/-- State of the decimal-formatting loop of `esp32c6_counter.rs` (main,
lines 48-69): the 16-byte buffer, the next write position `pos`, the
remaining value `n` and the `started` flag. -/
structure FmtState where
  buffer : List Nat
  pos : Nat
  n : Nat
  started : Bool
deriving DecidableEq, Repr

/-- Body of one iteration of the `while divisor > 0` loop of
`esp32c6_counter.rs` (lines 59-68): `digit = (n / divisor) as u8` is the
truncating u8 cast, modelled as `% 256`; if the digit is nonzero or a digit
was already emitted, `b'0' + digit` (u8 addition, modelled `% 256`) is
stored at `pos` and `pos` advances; then `n %= divisor`. -/
def fmtStep (divisor : Nat) (s : FmtState) : FmtState :=
  let digit := s.n / divisor % 256
  if 0 < digit ∨ s.started then
    { buffer := s.buffer.set s.pos ((48 + digit) % 256), pos := s.pos + 1,
      n := s.n % divisor, started := true }
  else
    { s with n := s.n % divisor }

/-- The `while divisor > 0` loop of `esp32c6_counter.rs`: run the body,
then `divisor /= 10`, until the divisor reaches zero. -/
def fmtLoop (divisor : Nat) (s : FmtState) : FmtState :=
  if h : 0 < divisor then fmtLoop (divisor / 10) (fmtStep divisor s)
  else s
termination_by divisor
decreasing_by exact Nat.div_lt_self h (by norm_num)

/-- The counter-formatting block of `esp32c6_counter.rs` (main, lines
48-69): a zeroed 16-byte buffer; value 0 is formatted as the single byte
b'0', any other value through the divisor loop starting at 1_000_000_000.
Returns the final buffer and `pos`. -/
def counterFormat (counter : Nat) : List Nat × Nat :=
  let buffer := List.replicate 16 0
  if counter = 0 then (buffer.set 0 48, 1)
  else
    let s := fmtLoop 1000000000 ⟨buffer, 0, counter, false⟩
    (s.buffer, s.pos)

/-- Numeric value of a big-endian base-10 digit list. -/
def ofDigitsBE : List Nat → Nat
  | [] => 0
  | d :: ds => d * 10 ^ ds.length + ofDigitsBE ds

/-- The big-endian base-10 digit list of n, zero-padded to m digits. -/
def padBE : Nat → Nat → List Nat
  | 0, _ => []
  | m + 1, n => n / 10 ^ m :: padBE m (n % 10 ^ m)

/-- Write the values of a list at consecutive positions of a buffer,
starting at position p. -/
def listWrite : List Nat → Nat → List Nat → List Nat
  | buf, _, [] => buf
  | buf, p, d :: ds => listWrite (buf.set p d) (p + 1) ds

/-- Cursor auto-advance touches only the cursor fields: geometry, backlight
and initialization status are unchanged. -/
lemma advance_fields (lcd : GroveLcd) :
    lcd.advance.backlight = lcd.backlight ∧
    lcd.advance.initState = lcd.initState ∧
    lcd.advance.columns = lcd.columns ∧
    lcd.advance.rows = lcd.rows := by
  unfold GroveLcd.advance
  split
  · exact ⟨rfl, rfl, rfl, rfl⟩
  split <;> exact ⟨rfl, rfl, rfl, rfl⟩

/-- A single data write leaves the driver state equal to the old state or to
its cursor-advanced form. -/
lemma write_lcd_cases (lcd : GroveLcd) (bus : Bus) (byte : Nat) :
    (lcd.write bus byte).lcd = lcd ∨ (lcd.write bus byte).lcd = lcd.advance := by
  simp only [GroveLcd.write, Bus.write]
  split
  · exact Or.inl rfl
  split
  · exact Or.inl rfl
  split
  · exact Or.inr rfl
  · exact Or.inl rfl

/-- The print loop leaves the driver state invariant under any state
observation that cursor auto-advance does not change. -/
lemma printLoop_pres {α : Type} (f : GroveLcd → α)
    (hf : ∀ l : GroveLcd, f l.advance = f l) :
    ∀ (text : List Nat) (lcd : GroveLcd) (bus : Bus),
      f (printLoop lcd bus text).lcd = f lcd := by
  intro text
  induction text with
  | nil => intro lcd bus; rfl
  | cons byte rest ih =>
    intro lcd bus
    have hw : f (lcd.write bus byte).lcd = f lcd := by
      rcases write_lcd_cases lcd bus byte with h | h
      · rw [h]
      · rw [h, hf]
    unfold printLoop
    cases herr : (lcd.write bus byte).err with
    | some e => simpa [herr] using hw
    | none => simpa [herr, ih] using hw

/-- Cursor auto-advance preserves the cursor invariant
column < columns, row < rows. -/
lemma advance_cursor_lt (lcd : GroveLcd) (hc : lcd.col < lcd.columns)
    (hr : lcd.row < lcd.rows) :
    lcd.advance.col < lcd.advance.columns ∧
    lcd.advance.row < lcd.advance.rows := by
  unfold GroveLcd.advance
  split <;> rename_i h1
  · exact ⟨h1, hr⟩
  split <;> rename_i h2
  · exact ⟨Nat.lt_of_le_of_lt (Nat.zero_le lcd.col) hc, h2⟩
  · exact ⟨hc, hr⟩

/-- Cursor auto-advance from a non-full in-range position uses up exactly
one remaining cell. -/
lemma advance_remaining (lcd : GroveLcd) (hc : lcd.col < lcd.columns)
    (hr : lcd.row < lcd.rows) (hf : lcd.full = false) :
    lcd.advance.remaining + 1 = lcd.remaining := by
  unfold GroveLcd.advance GroveLcd.remaining
  split <;> rename_i h1
  · simp only [hf, if_false, Bool.false_eq_true]
    have hcc : lcd.columns - (lcd.col + 1) + 1 = lcd.columns - lcd.col := by
      omega
    omega
  split <;> rename_i h2
  · simp only [hf, if_false, Bool.false_eq_true]
    have h3 : lcd.rows - 1 - lcd.row = (lcd.rows - 1 - (lcd.row + 1)) + 1 := by
      omega
    rw [h3, Nat.add_mul, Nat.one_mul]
    have h4 : lcd.columns - lcd.col = 1 := by omega
    omega
  · simp only [hf, if_false, if_true, Bool.false_eq_true]
    have h3 : lcd.rows - 1 - lcd.row = 0 := by omega
    have h4 : lcd.columns - lcd.col = 1 := by omega
    simp [h3, h4]

/-- The print loop keeps the cursor strictly inside the geometry. -/
lemma printLoop_cursor_lt (text : List Nat) :
    ∀ (lcd : GroveLcd) (bus : Bus),
      lcd.col < lcd.columns → lcd.row < lcd.rows →
      (printLoop lcd bus text).lcd.col < (printLoop lcd bus text).lcd.columns ∧
      (printLoop lcd bus text).lcd.row < (printLoop lcd bus text).lcd.rows := by
  induction text with
  | nil => intro lcd bus hc hr; exact ⟨hc, hr⟩
  | cons byte rest ih =>
    intro lcd bus hc hr
    have hcases := write_lcd_cases lcd bus byte
    unfold printLoop
    cases herr : (lcd.write bus byte).err with
    | some e =>
      simp only [herr]
      rcases hcases with h | h <;> rw [h]
      · exact ⟨hc, hr⟩
      · exact advance_cursor_lt lcd hc hr
    | none =>
      simp only [herr]
      rcases hcases with h | h <;> rw [h]
      · exact ih lcd (lcd.write bus byte).bus hc hr
      · exact ih lcd.advance (lcd.write bus byte).bus
          (advance_cursor_lt lcd hc hr).1 (advance_cursor_lt lcd hc hr).2

/-- On a bus that acknowledges every write, the print loop from a Ready
in-range state never fails and performs at most `remaining` bus writes:
characters beyond the last cell are dropped, not written and not errors. -/
lemma printLoop_ok (text : List Nat) :
    ∀ (lcd : GroveLcd) (bus : Bus),
      lcd.initState = .Ready →
      lcd.col < lcd.columns → lcd.row < lcd.rows →
      (∀ w, bus.respond w = true) →
      (printLoop lcd bus text).err = none ∧
      (printLoop lcd bus text).bus.trace.length ≤
        bus.trace.length + lcd.remaining := by
  induction text with
  | nil => intro lcd bus _ _ _ _; exact ⟨rfl, Nat.le_add_right _ _⟩
  | cons byte rest ih =>
    intro lcd bus hready hc hr hack
    by_cases hf : lcd.full
    · have hw : lcd.write bus byte = ⟨lcd, bus, none⟩ := by
        simp [GroveLcd.write, hready, hf]
      unfold printLoop
      simp only [hw]
      exact ih lcd bus hready hc hr hack
    · have hok : bus.respond ⟨LCD_ADDR, [0x40, byte]⟩ = true := hack _
      have hw : lcd.write bus byte =
          ⟨lcd.advance, ⟨bus.respond, bus.trace ++ [⟨LCD_ADDR, [0x40, byte]⟩]⟩,
            none⟩ := by
        simp [GroveLcd.write, Bus.write, hready, hf, hok]
      unfold printLoop
      simp only [hw]
      have hadv := advance_cursor_lt lcd hc hr
      have hstate : lcd.advance.initState = .Ready := by
        rw [(advance_fields lcd).2.1, hready]
      have hrec := ih lcd.advance
        ⟨bus.respond, bus.trace ++ [⟨LCD_ADDR, [0x40, byte]⟩]⟩
        hstate hadv.1 hadv.2 hack
      refine ⟨hrec.1, ?_⟩
      have hrem := advance_remaining lcd hc hr (by simpa using hf)
      have hlen := hrec.2
      simp only [List.length_append, List.length_cons, List.length_nil] at hlen
      omega

/-- C1: after begin(16,2) on a board with only the V4 backlight present the
selected BacklightVariant is V4, and set_rgb(0,255,0) performs exactly three
bus writes, all to address 0x62, with payloads [0x04,0], [0x03,255],
[0x02,0] in that order. -/
theorem begin_v4_set_rgb_green_trace :
    (GroveLcd.new.begin ⟨onlyV4, []⟩ 16 2).lcd.backlight = .V4 ∧
    ((GroveLcd.new.begin ⟨onlyV4, []⟩ 16 2).lcd.set_rgb
        (GroveLcd.new.begin ⟨onlyV4, []⟩ 16 2).bus 0 255 0).err = none ∧
    ((GroveLcd.new.begin ⟨onlyV4, []⟩ 16 2).lcd.set_rgb
        (GroveLcd.new.begin ⟨onlyV4, []⟩ 16 2).bus 0 255 0).bus.trace =
      (GroveLcd.new.begin ⟨onlyV4, []⟩ 16 2).bus.trace ++
        [⟨RGB_V4_ADDR, [0x04, 0]⟩, ⟨RGB_V4_ADDR, [0x03, 255]⟩,
         ⟨RGB_V4_ADDR, [0x02, 0]⟩] := by
  refine ⟨rfl, rfl, rfl⟩

/-- C3: set_cursor with column ≥ columns or row ≥ rows fails with
OutOfBounds and leaves the driver state and the bus completely unchanged. -/
theorem set_cursor_oob_rejected (lcd : GroveLcd) (bus : Bus) (c r : Nat)
    (hready : lcd.initState = .Ready)
    (hoob : lcd.columns ≤ c ∨ lcd.rows ≤ r) :
    lcd.set_cursor bus c r = ⟨lcd, bus, some .OutOfBounds⟩ := by
  simp [GroveLcd.set_cursor, hready, hoob]

/-- Witness for set_cursor_oob_rejected at a concrete 16×2 Ready state. -/
theorem set_cursor_oob_rejected_witness :
    (⟨16, 2, 0, 0, .Absent, .Ready, false⟩ : GroveLcd).initState = .Ready ∧
    ((⟨16, 2, 0, 0, .Absent, .Ready, false⟩ : GroveLcd).columns ≤ 16 ∨
      (⟨16, 2, 0, 0, .Absent, .Ready, false⟩ : GroveLcd).rows ≤ 0) ∧
    (⟨16, 2, 0, 0, .Absent, .Ready, false⟩ : GroveLcd).set_cursor ⟨allAck, []⟩ 16 0 =
      ⟨⟨16, 2, 0, 0, .Absent, .Ready, false⟩, ⟨allAck, []⟩, some .OutOfBounds⟩ :=
  ⟨rfl, Or.inl (by decide),
    set_cursor_oob_rejected _ _ 16 0 rfl (Or.inl (by decide))⟩

/-- C6: with an Absent backlight, set_rgb succeeds for every color and
performs zero bus writes, leaving driver state and bus unchanged. -/
theorem set_rgb_absent_noop (lcd : GroveLcd) (bus : Bus) (r g b : Nat)
    (hready : lcd.initState = .Ready) (habs : lcd.backlight = .Absent) :
    lcd.set_rgb bus r g b = ⟨lcd, bus, none⟩ := by
  simp [GroveLcd.set_rgb, hready, habs]

/-- Witness for set_rgb_absent_noop at a concrete Ready state. -/
theorem set_rgb_absent_noop_witness :
    (⟨16, 2, 0, 0, .Absent, .Ready, false⟩ : GroveLcd).initState = .Ready ∧
    (⟨16, 2, 0, 0, .Absent, .Ready, false⟩ : GroveLcd).backlight = .Absent ∧
    (⟨16, 2, 0, 0, .Absent, .Ready, false⟩ : GroveLcd).set_rgb ⟨allAck, []⟩ 7 8 9 =
      ⟨⟨16, 2, 0, 0, .Absent, .Ready, false⟩, ⟨allAck, []⟩, none⟩ :=
  ⟨rfl, rfl, set_rgb_absent_noop _ _ 7 8 9 rfl rfl⟩

/-- C7: with a V5 backlight, set_rgb(r,g,b) issues exactly three
single-register writes to address 0x30 using registers 0x06 (red),
0x07 (green), 0x08 (blue), in that order. -/
theorem set_rgb_v5_registers (lcd : GroveLcd) (bus : Bus) (r g b : Nat)
    (hready : lcd.initState = .Ready) (hv5 : lcd.backlight = .V5) :
    (lcd.set_rgb bus r g b).bus.trace =
      bus.trace ++ [⟨RGB_V5_ADDR, [0x06, r]⟩, ⟨RGB_V5_ADDR, [0x07, g]⟩,
        ⟨RGB_V5_ADDR, [0x08, b]⟩] := by
  simp [GroveLcd.set_rgb, hready, hv5, Bus.write]

/-- Witness for set_rgb_v5_registers at a concrete Ready V5 state. -/
theorem set_rgb_v5_registers_witness :
    (⟨16, 2, 0, 0, .V5, .Ready, false⟩ : GroveLcd).initState = .Ready ∧
    (⟨16, 2, 0, 0, .V5, .Ready, false⟩ : GroveLcd).backlight = .V5 ∧
    ((⟨16, 2, 0, 0, .V5, .Ready, false⟩ : GroveLcd).set_rgb ⟨allAck, []⟩
        1 2 3).bus.trace =
      [] ++ [⟨RGB_V5_ADDR, [0x06, 1]⟩, ⟨RGB_V5_ADDR, [0x07, 2]⟩,
        ⟨RGB_V5_ADDR, [0x08, 3]⟩] :=
  ⟨rfl, rfl, set_rgb_v5_registers _ ⟨allAck, []⟩ 1 2 3 rfl rfl⟩

/-- C5: with a present backlight variant (V4 or V5), set_rgb attempts all
three per-register sub-writes even when an earlier one fails — the trace
always grows by exactly those three writes — and the returned result is
success if and only if all three sub-writes were acknowledged. -/
theorem set_rgb_all_attempted (lcd : GroveLcd) (bus : Bus) (r g b : Nat)
    (hready : lcd.initState = .Ready) :
    (lcd.backlight = .V4 →
      (lcd.set_rgb bus r g b).bus.trace =
        bus.trace ++ [⟨RGB_V4_ADDR, [0x04, r]⟩, ⟨RGB_V4_ADDR, [0x03, g]⟩,
          ⟨RGB_V4_ADDR, [0x02, b]⟩] ∧
      ((lcd.set_rgb bus r g b).err = none ↔
        bus.respond ⟨RGB_V4_ADDR, [0x04, r]⟩ = true ∧
        bus.respond ⟨RGB_V4_ADDR, [0x03, g]⟩ = true ∧
        bus.respond ⟨RGB_V4_ADDR, [0x02, b]⟩ = true)) ∧
    (lcd.backlight = .V5 →
      (lcd.set_rgb bus r g b).bus.trace =
        bus.trace ++ [⟨RGB_V5_ADDR, [0x06, r]⟩, ⟨RGB_V5_ADDR, [0x07, g]⟩,
          ⟨RGB_V5_ADDR, [0x08, b]⟩] ∧
      ((lcd.set_rgb bus r g b).err = none ↔
        bus.respond ⟨RGB_V5_ADDR, [0x06, r]⟩ = true ∧
        bus.respond ⟨RGB_V5_ADDR, [0x07, g]⟩ = true ∧
        bus.respond ⟨RGB_V5_ADDR, [0x08, b]⟩ = true)) := by
  constructor <;> intro hv <;>
    refine ⟨by simp [GroveLcd.set_rgb, hready, hv, Bus.write], ?_⟩ <;>
    · simp only [GroveLcd.set_rgb, hready, hv, Bus.write]
      split <;> rename_i hcond <;> simp_all

/-- Witness for set_rgb_all_attempted: a V4 board whose green-register write
is the only one not acknowledged; all three writes still appear on the bus
and the call reports failure. -/
theorem set_rgb_all_attempted_witness :
    (⟨16, 2, 0, 0, .V4, .Ready, false⟩ : GroveLcd).initState = .Ready ∧
    (⟨16, 2, 0, 0, .V4, .Ready, false⟩ : GroveLcd).backlight = .V4 ∧
    ((⟨16, 2, 0, 0, .V4, .Ready, false⟩ : GroveLcd).set_rgb
        ⟨fun w => w.data != [0x03, 20], []⟩ 10 20 30).bus.trace =
      [] ++ [⟨RGB_V4_ADDR, [0x04, 10]⟩, ⟨RGB_V4_ADDR, [0x03, 20]⟩,
        ⟨RGB_V4_ADDR, [0x02, 30]⟩] ∧
    ¬ ((⟨16, 2, 0, 0, .V4, .Ready, false⟩ : GroveLcd).set_rgb
        ⟨fun w => w.data != [0x03, 20], []⟩ 10 20 30).err = none := by
  have h := set_rgb_all_attempted ⟨16, 2, 0, 0, .V4, .Ready, false⟩
    ⟨fun w => w.data != [0x03, 20], []⟩ 10 20 30 rfl
  refine ⟨rfl, rfl, (h.1 rfl).1, ?_⟩
  intro hnone
  have := ((h.1 rfl).2.mp hnone).2.1
  simp at this

/-- C4: during begin the V4 address (0x62) is probed before the V5 address
(0x30): the probe writes (empty payloads) appearing on the bus during begin
are always an initial portion of [probe 0x62, probe 0x30].  Whenever the V4
probe acknowledges — in particular when both probe addresses do — a
completed begin selects BacklightVariant V4.  The selection is never
re-evaluated afterwards: no public operation changes the backlight field. -/
theorem backlight_detection_v4_first :
    (∀ (respond : BusWrite → Bool) (lcd : GroveLcd) (tr : List BusWrite)
        (columns rows : Nat),
      respond ⟨RGB_V4_ADDR, []⟩ = true →
      (lcd.begin ⟨respond, tr⟩ columns rows).err = none →
      (lcd.begin ⟨respond, tr⟩ columns rows).lcd.backlight = .V4) ∧
    (∀ (respond : BusWrite → Bool) (lcd : GroveLcd) (tr : List BusWrite)
        (columns rows : Nat),
      ((lcd.begin ⟨respond, tr⟩ columns rows).bus.trace.drop tr.length).filter
          (fun w => w.data.isEmpty) = [] ∨
      ((lcd.begin ⟨respond, tr⟩ columns rows).bus.trace.drop tr.length).filter
          (fun w => w.data.isEmpty) = [⟨RGB_V4_ADDR, []⟩] ∨
      ((lcd.begin ⟨respond, tr⟩ columns rows).bus.trace.drop tr.length).filter
          (fun w => w.data.isEmpty) = [⟨RGB_V4_ADDR, []⟩, ⟨RGB_V5_ADDR, []⟩]) ∧
    (∀ (lcd : GroveLcd) (bus : Bus) (r g b : Nat),
      (lcd.set_rgb bus r g b).lcd.backlight = lcd.backlight) ∧
    (∀ (lcd : GroveLcd) (bus : Bus) (c r : Nat),
      (lcd.set_cursor bus c r).lcd.backlight = lcd.backlight) ∧
    (∀ (lcd : GroveLcd) (bus : Bus) (byte : Nat),
      (lcd.write bus byte).lcd.backlight = lcd.backlight) ∧
    (∀ (lcd : GroveLcd) (bus : Bus) (text : List Nat),
      (lcd.print bus text).lcd.backlight = lcd.backlight) ∧
    (∀ (lcd : GroveLcd) (bus : Bus),
      (lcd.clear bus).lcd.backlight = lcd.backlight) := by
  refine ⟨?_, ?_, ?_, ?_, ?_, ?_, ?_⟩
  · intro respond lcd tr columns rows h4 herr
    simp [GroveLcd.begin, Bus.write, h4] at herr ⊢
    split at herr <;> rename_i h1
    · split at herr <;> rename_i h2
      · simp [h1, h2]
      · simp at herr
    · simp at herr
  · intro respond lcd tr columns rows
    simp only [GroveLcd.begin, Bus.write]
    split
    · split
      · split <;>
          simp [List.append_assoc, List.drop_left, List.filter,
            RGB_V4_ADDR, RGB_V5_ADDR, LCD_ADDR]
      · split
        · split <;>
            simp [List.append_assoc, List.drop_left, List.filter,
              RGB_V4_ADDR, RGB_V5_ADDR, LCD_ADDR]
        · simp [List.append_assoc, List.drop_left, List.filter,
            RGB_V4_ADDR, RGB_V5_ADDR, LCD_ADDR]
    · simp [List.append_assoc, List.drop_left, List.filter,
        RGB_V4_ADDR, RGB_V5_ADDR, LCD_ADDR]
  · intro lcd bus r g b
    simp only [GroveLcd.set_rgb, Bus.write]
    split
    · rfl
    · cases hb : lcd.backlight <;> simp [hb]
  · intro lcd bus c r
    simp only [GroveLcd.set_cursor, Bus.write]
    split
    · rfl
    split
    · rfl
    split <;> rfl
  · intro lcd bus byte
    rcases write_lcd_cases lcd bus byte with h | h <;> rw [h]
    exact (advance_fields lcd).1
  · intro lcd bus text
    unfold GroveLcd.print
    split
    · rfl
    · exact printLoop_pres (fun l => l.backlight)
        (fun l => (advance_fields l).1) text lcd bus
  · intro lcd bus
    simp only [GroveLcd.clear, Bus.write]
    split
    · rfl
    split <;> rfl

/-- Witness for backlight_detection_v4_first: on a board where both probe
addresses acknowledge, begin(16,2) completes and selects V4. -/
theorem backlight_detection_v4_first_witness :
    allAck ⟨RGB_V4_ADDR, []⟩ = true ∧
    (GroveLcd.new.begin ⟨allAck, []⟩ 16 2).err = none ∧
    (GroveLcd.new.begin ⟨allAck, []⟩ 16 2).lcd.backlight = .V4 :=
  ⟨rfl, rfl, backlight_detection_v4_first.1 allAck GroveLcd.new [] 16 2 rfl rfl⟩

/-- A begin that reports success has reset the cursor to (0,0), become
Ready, and stored the requested geometry. -/
lemma begin_ok_state (respond : BusWrite → Bool) (lcd : GroveLcd)
    (tr : List BusWrite) (columns rows : Nat)
    (hok : (lcd.begin ⟨respond, tr⟩ columns rows).err = none) :
    (lcd.begin ⟨respond, tr⟩ columns rows).lcd.col = 0 ∧
    (lcd.begin ⟨respond, tr⟩ columns rows).lcd.row = 0 ∧
    (lcd.begin ⟨respond, tr⟩ columns rows).lcd.initState = .Ready ∧
    (lcd.begin ⟨respond, tr⟩ columns rows).lcd.columns = columns ∧
    (lcd.begin ⟨respond, tr⟩ columns rows).lcd.rows = rows := by
  simp only [GroveLcd.begin, Bus.write] at hok ⊢
  split at hok <;> rename_i h1
  · split at hok <;> rename_i h2
    · split at hok <;> rename_i h3
      · simp [h1, h2, h3]
      · simp at hok
    · split at hok <;> rename_i h3
      · split at hok <;> rename_i h4
        · simp [h1, h2, h3, h4]
        · simp at hok
      · simp [h1, h2, h3]
  · simp at hok

/-- C8: for geometry with columns in [1,16] and rows in [1,2], a successful
begin(columns, rows) followed by clear() leaves the cursor at (0,0),
whether or not the Clear-Display bus write is acknowledged. -/
theorem begin_clear_cursor_origin (respond : BusWrite → Bool) (lcd : GroveLcd)
    (tr : List BusWrite) (columns rows : Nat)
    (hc1 : 1 ≤ columns) (hc2 : columns ≤ 16) (hr1 : 1 ≤ rows) (hr2 : rows ≤ 2)
    (hok : (lcd.begin ⟨respond, tr⟩ columns rows).err = none) :
    ((lcd.begin ⟨respond, tr⟩ columns rows).lcd.clear
        (lcd.begin ⟨respond, tr⟩ columns rows).bus).lcd.col = 0 ∧
    ((lcd.begin ⟨respond, tr⟩ columns rows).lcd.clear
        (lcd.begin ⟨respond, tr⟩ columns rows).bus).lcd.row = 0 := by
  obtain ⟨hcol, hrow, hstate, -, -⟩ :=
    begin_ok_state respond lcd tr columns rows hok
  generalize hgen : lcd.begin ⟨respond, tr⟩ columns rows = o at hcol hrow hstate ⊢
  simp only [GroveLcd.clear, Bus.write, hstate]
  split
  · simp_all
  split
  · simp
  · simp [hcol, hrow]

/-- Witness for begin_clear_cursor_origin: a fully acknowledged begin(16,2)
followed by clear keeps the cursor at the origin. -/
theorem begin_clear_cursor_origin_witness :
    (1 ≤ 16 ∧ 16 ≤ 16 ∧ 1 ≤ 2 ∧ 2 ≤ 2) ∧
    (GroveLcd.new.begin ⟨allAck, []⟩ 16 2).err = none ∧
    ((GroveLcd.new.begin ⟨allAck, []⟩ 16 2).lcd.clear
        (GroveLcd.new.begin ⟨allAck, []⟩ 16 2).bus).lcd.col = 0 ∧
    ((GroveLcd.new.begin ⟨allAck, []⟩ 16 2).lcd.clear
        (GroveLcd.new.begin ⟨allAck, []⟩ 16 2).bus).lcd.row = 0 :=
  ⟨⟨by decide, by decide, by decide, by decide⟩, rfl,
    begin_clear_cursor_origin allAck GroveLcd.new [] 16 2
      (by decide) (by decide) (by decide) (by decide) rfl⟩

/-- C9: the driver is constructed Uninitialized; print, write, set_cursor,
clear and set_rgb all fail with NotInitialized (changing nothing) whenever
the state is not Ready — in particular while Uninitialized or Failed;
begin yields a Ready state only when it reports success (the full power-on
sequence succeeded); and no public operation other than begin ever changes
the initialization state. -/
theorem ready_gating :
    GroveLcd.new.initState = .Uninitialized ∧
    (∀ (lcd : GroveLcd) (bus : Bus) (text : List Nat),
      lcd.initState ≠ .Ready →
      lcd.print bus text = ⟨lcd, bus, some .NotInitialized⟩) ∧
    (∀ (lcd : GroveLcd) (bus : Bus) (byte : Nat),
      lcd.initState ≠ .Ready →
      lcd.write bus byte = ⟨lcd, bus, some .NotInitialized⟩) ∧
    (∀ (lcd : GroveLcd) (bus : Bus) (c r : Nat),
      lcd.initState ≠ .Ready →
      lcd.set_cursor bus c r = ⟨lcd, bus, some .NotInitialized⟩) ∧
    (∀ (lcd : GroveLcd) (bus : Bus),
      lcd.initState ≠ .Ready →
      lcd.clear bus = ⟨lcd, bus, some .NotInitialized⟩) ∧
    (∀ (lcd : GroveLcd) (bus : Bus) (r g b : Nat),
      lcd.initState ≠ .Ready →
      lcd.set_rgb bus r g b = ⟨lcd, bus, some .NotInitialized⟩) ∧
    (∀ (respond : BusWrite → Bool) (lcd : GroveLcd) (tr : List BusWrite)
        (columns rows : Nat),
      (lcd.begin ⟨respond, tr⟩ columns rows).lcd.initState = .Ready →
      (lcd.begin ⟨respond, tr⟩ columns rows).err = none) ∧
    (∀ (lcd : GroveLcd) (bus : Bus) (text : List Nat),
      (lcd.print bus text).lcd.initState = lcd.initState) ∧
    (∀ (lcd : GroveLcd) (bus : Bus) (byte : Nat),
      (lcd.write bus byte).lcd.initState = lcd.initState) ∧
    (∀ (lcd : GroveLcd) (bus : Bus) (c r : Nat),
      (lcd.set_cursor bus c r).lcd.initState = lcd.initState) ∧
    (∀ (lcd : GroveLcd) (bus : Bus),
      (lcd.clear bus).lcd.initState = lcd.initState) ∧
    (∀ (lcd : GroveLcd) (bus : Bus) (r g b : Nat),
      (lcd.set_rgb bus r g b).lcd.initState = lcd.initState) := by
  refine ⟨rfl, ?_, ?_, ?_, ?_, ?_, ?_, ?_, ?_, ?_, ?_, ?_⟩
  · intro lcd bus text h; simp [GroveLcd.print, h]
  · intro lcd bus byte h; simp [GroveLcd.write, h]
  · intro lcd bus c r h; simp [GroveLcd.set_cursor, h]
  · intro lcd bus h; simp [GroveLcd.clear, h]
  · intro lcd bus r g b h; simp [GroveLcd.set_rgb, h]
  · intro respond lcd tr columns rows hrdy
    simp only [GroveLcd.begin, Bus.write] at hrdy ⊢
    split at hrdy <;> rename_i h1
    · split at hrdy <;> rename_i h2
      · split at hrdy <;> rename_i h3
        · simp [h1, h2, h3]
        · simp at hrdy
      · split at hrdy <;> rename_i h3
        · split at hrdy <;> rename_i h4
          · simp [h1, h2, h3, h4]
          · simp at hrdy
        · simp [h1, h2, h3]
    · simp at hrdy
  · intro lcd bus text
    unfold GroveLcd.print
    split
    · rfl
    · exact printLoop_pres (fun l => l.initState)
        (fun l => (advance_fields l).2.1) text lcd bus
  · intro lcd bus byte
    rcases write_lcd_cases lcd bus byte with h | h <;> rw [h]
    exact (advance_fields lcd).2.1
  · intro lcd bus c r
    simp only [GroveLcd.set_cursor, Bus.write]
    split
    · rfl
    split
    · rfl
    split <;> rfl
  · intro lcd bus
    simp only [GroveLcd.clear, Bus.write]
    split
    · rfl
    split <;> rfl
  · intro lcd bus r g b
    simp only [GroveLcd.set_rgb, Bus.write]
    split
    · rfl
    · cases hb : lcd.backlight <;> simp [hb]

/-- Witness for ready_gating: a freshly constructed (Uninitialized) driver
rejects print with NotInitialized. -/
theorem ready_gating_witness :
    GroveLcd.new.initState ≠ .Ready ∧
    GroveLcd.new.print ⟨allAck, []⟩ [65] =
      ⟨GroveLcd.new, ⟨allAck, []⟩, some .NotInitialized⟩ :=
  ⟨by decide, ready_gating.2.1 GroveLcd.new ⟨allAck, []⟩ [65] (by decide)⟩

/-- C2: for every text and every driver state whose cursor satisfies the
invariant, print keeps the cursor strictly inside the geometry — it never
advances past (columns-1, rows-1) and leaves the geometry untouched — and
on an acknowledging bus a Ready driver never fails: a string longer than
the remaining cells performs at most `remaining` data writes, the excess
characters being dropped. -/
theorem print_clamps_and_truncates (lcd : GroveLcd) (bus : Bus)
    (text : List Nat)
    (hc : lcd.col < lcd.columns) (hr : lcd.row < lcd.rows) :
    ((lcd.print bus text).lcd.col < (lcd.print bus text).lcd.columns ∧
     (lcd.print bus text).lcd.row < (lcd.print bus text).lcd.rows ∧
     (lcd.print bus text).lcd.columns = lcd.columns ∧
     (lcd.print bus text).lcd.rows = lcd.rows) ∧
    (lcd.initState = .Ready → (∀ w, bus.respond w = true) →
      (lcd.print bus text).err = none ∧
      (lcd.print bus text).bus.trace.length ≤
        bus.trace.length + lcd.remaining) := by
  constructor
  · unfold GroveLcd.print
    split
    · exact ⟨hc, hr, rfl, rfl⟩
    · refine ⟨(printLoop_cursor_lt text lcd bus hc hr).1,
        (printLoop_cursor_lt text lcd bus hc hr).2, ?_, ?_⟩
      · exact printLoop_pres (fun l => l.columns)
          (fun l => (advance_fields l).2.2.1) text lcd bus
      · exact printLoop_pres (fun l => l.rows)
          (fun l => (advance_fields l).2.2.2) text lcd bus
  · intro hready hack
    unfold GroveLcd.print
    rw [if_neg (by simp [hready])]
    exact printLoop_ok text lcd bus hready hc hr hack

/-- Witness for print_clamps_and_truncates: a 40-character string printed
on a Ready 16×2 display from the origin over an acknowledging bus. -/
theorem print_clamps_and_truncates_witness :
    (⟨16, 2, 0, 0, .Absent, .Ready, false⟩ : GroveLcd).col <
      (⟨16, 2, 0, 0, .Absent, .Ready, false⟩ : GroveLcd).columns ∧
    (⟨16, 2, 0, 0, .Absent, .Ready, false⟩ : GroveLcd).row <
      (⟨16, 2, 0, 0, .Absent, .Ready, false⟩ : GroveLcd).rows ∧
    (⟨16, 2, 0, 0, .Absent, .Ready, false⟩ : GroveLcd).initState = .Ready ∧
    (∀ w, (⟨allAck, []⟩ : Bus).respond w = true) ∧
    (((⟨16, 2, 0, 0, .Absent, .Ready, false⟩ : GroveLcd).print ⟨allAck, []⟩
        (List.replicate 40 65)).err = none ∧
      ((⟨16, 2, 0, 0, .Absent, .Ready, false⟩ : GroveLcd).print ⟨allAck, []⟩
          (List.replicate 40 65)).bus.trace.length ≤
        (⟨allAck, []⟩ : Bus).trace.length +
          (⟨16, 2, 0, 0, .Absent, .Ready, false⟩ : GroveLcd).remaining) :=
  ⟨by decide, by decide, rfl, fun _ => rfl,
    (print_clamps_and_truncates ⟨16, 2, 0, 0, .Absent, .Ready, false⟩
      ⟨allAck, []⟩ (List.replicate 40 65) (by decide) (by decide)).2
      rfl (fun _ => rfl)⟩

lemma padBE_length : ∀ (m n : Nat), (padBE m n).length = m
  | 0, _ => rfl
  | m + 1, n => by simp [padBE, padBE_length m]

lemma padBE_digit_lt : ∀ (m n : Nat), n < 10 ^ m → ∀ d ∈ padBE m n, d < 10
  | 0, n, _, d, hd => by simp [padBE] at hd
  | m + 1, n, hn, d, hd => by
    simp only [padBE, List.mem_cons] at hd
    rcases hd with rfl | hd
    · exact Nat.div_lt_of_lt_mul (by rw [← pow_succ]; exact hn)
    · exact padBE_digit_lt m (n % 10 ^ m)
        (Nat.mod_lt _ (pow_pos (by norm_num) m)) d hd

lemma ofDigitsBE_padBE : ∀ (m n : Nat), n < 10 ^ m →
    ofDigitsBE (padBE m n) = n
  | 0, n, hn => by
    have h0 : n = 0 := Nat.lt_one_iff.mp (by simpa using hn)
    simp [padBE, ofDigitsBE, h0]
  | m + 1, n, _ => by
    simp only [padBE, ofDigitsBE, padBE_length]
    rw [ofDigitsBE_padBE m (n % 10 ^ m)
      (Nat.mod_lt _ (pow_pos (by norm_num) m))]
    rw [Nat.mul_comm (n / 10 ^ m) (10 ^ m)]
    exact Nat.div_add_mod n (10 ^ m)

lemma ofDigitsBE_dropWhile_zero : ∀ l : List Nat,
    ofDigitsBE (l.dropWhile (fun d => d == 0)) = ofDigitsBE l
  | [] => rfl
  | d :: ds => by
    rw [List.dropWhile_cons]
    by_cases hd : d = 0
    · subst hd
      simp only [beq_self_eq_true, if_true]
      rw [ofDigitsBE_dropWhile_zero ds]
      simp [ofDigitsBE]
    · simp [hd]

lemma dropWhile_zero_head_ne : ∀ (l : List Nat) (d : Nat) (rest : List Nat),
    l.dropWhile (fun x => x == 0) = d :: rest → d ≠ 0
  | [], d, rest, h => by simp [List.dropWhile] at h
  | x :: xs, d, rest, h => by
    rw [List.dropWhile_cons] at h
    by_cases hx : x = 0
    · subst hx
      simp only [beq_self_eq_true, if_true] at h
      exact dropWhile_zero_head_ne xs d rest h
    · simp only [beq_iff_eq, hx, if_false] at h
      injection h with h1 h2
      rw [← h1]
      exact hx

lemma listWrite_length : ∀ (xs buf : List Nat) (p : Nat),
    (listWrite buf p xs).length = buf.length
  | [], _, _ => rfl
  | d :: ds, buf, p => by
    simp [listWrite, listWrite_length ds]

lemma listWrite_eq : ∀ (xs buf : List Nat) (p : Nat),
    p + xs.length ≤ buf.length →
    listWrite buf p xs = buf.take p ++ xs ++ buf.drop (p + xs.length)
  | [], buf, p, h => by
    simp only [listWrite, List.append_nil, List.length_nil, Nat.add_zero]
    rw [← List.take_append_drop p buf]
    simp
  | d :: ds, buf, p, h => by
    have hlen : ds.length + 1 = (d :: ds).length := rfl
    have hp : p < buf.length := by
      simp only [List.length_cons] at h; omega
    rw [listWrite]
    rw [listWrite_eq ds (buf.set p d) (p + 1)
      (by simp only [List.length_set, List.length_cons] at h ⊢; omega)]
    rw [List.set_eq_take_cons_drop d hp]
    have htp : (buf.take p).length = p := by
      simp [List.length_take, Nat.min_eq_left (Nat.le_of_lt hp)]
    rw [List.take_append_eq_append_take, List.take_of_length_le (by omega),
      htp, List.drop_append_eq_append_drop, htp]
    have h1 : p + 1 - p = 1 := by omega
    rw [h1]
    have h2 : (buf.take p).drop (p + 1 + ds.length) = [] := by
      apply List.drop_eq_nil_of_le
      omega
    rw [h2]
    have h3 : p + 1 + ds.length - p = 1 + ds.length := by omega
    rw [h3]
    simp only [List.take_succ_cons, List.take_zero, List.nil_append,
      List.drop_succ_cons, List.nil_append]
    have h4 : (1 + ds.length) = ds.length + 1 := by omega
    rw [h4]
    simp only [List.drop_succ_cons]
    rw [List.drop_drop]
    have h6 : p + (d :: ds).length = ds.length + (p + 1) := by
      simp only [List.length_cons]
      omega
    rw [h6]
    simp [List.append_assoc]
    congr 1
    omega

lemma fmtLoop_started : ∀ (m : Nat) (buf : List Nat) (p n : Nat),
    n < 10 ^ (m + 1) →
    fmtLoop (10 ^ m) ⟨buf, p, n, true⟩ =
      ⟨listWrite buf p ((padBE (m + 1) n).map (fun d => 48 + d)),
       p + (m + 1), 0, true⟩ := by
  intro m
  induction m with
  | zero =>
    intro buf p n hn
    have hn10 : n < 10 := by simpa using hn
    have h256 : n % 256 = n := Nat.mod_eq_of_lt (by omega)
    have h48 : (48 + n) % 256 = 48 + n := Nat.mod_eq_of_lt (by omega)
    simp [fmtLoop, fmtStep, padBE, listWrite, Nat.div_one, Nat.mod_one,
      h256, h48, pow_zero]
  | succ m ihm =>
    intro buf p n hn
    have hpow : (0:ℕ) < 10 ^ (m + 1) := pow_pos (by norm_num) _
    have hdigit : n / 10 ^ (m + 1) < 10 :=
      Nat.div_lt_of_lt_mul (by rw [← pow_succ]; exact hn)
    rw [fmtLoop, dif_pos hpow]
    have hdiv : 10 ^ (m + 1) / 10 = 10 ^ m := by
      rw [pow_succ]
      exact Nat.mul_div_cancel _ (by norm_num)
    rw [hdiv]
    have hstep : fmtStep (10 ^ (m + 1)) ⟨buf, p, n, true⟩ =
        ⟨buf.set p (48 + n / 10 ^ (m + 1)), p + 1, n % 10 ^ (m + 1), true⟩ := by
      simp [fmtStep, Nat.mod_eq_of_lt (show n / 10 ^ (m + 1) < 256 by omega),
        Nat.mod_eq_of_lt (show 48 + n / 10 ^ (m + 1) < 256 by omega)]
    rw [hstep]
    rw [ihm (buf.set p (48 + n / 10 ^ (m + 1))) (p + 1) (n % 10 ^ (m + 1))
      (Nat.mod_lt _ hpow)]
    simp only [padBE, List.map_cons, listWrite, FmtState.mk.injEq,
      true_and, and_true]
    omega

lemma fmtLoop_unstarted : ∀ (m : Nat) (buf : List Nat) (p n : Nat),
    n < 10 ^ (m + 1) →
    fmtLoop (10 ^ m) ⟨buf, p, n, false⟩ =
      ⟨listWrite buf p
          (((padBE (m + 1) n).dropWhile (fun d => d == 0)).map
            (fun d => 48 + d)),
       p + ((padBE (m + 1) n).dropWhile (fun d => d == 0)).length,
       0, decide (0 < n)⟩ := by
  intro m
  induction m with
  | zero =>
    intro buf p n hn
    have hn10 : n < 10 := by simpa using hn
    by_cases h0 : n = 0
    · subst h0
      simp [fmtLoop, fmtStep, padBE, listWrite]
    · have hpos : 0 < n := Nat.pos_of_ne_zero h0
      have h256 : n % 256 = n := Nat.mod_eq_of_lt (by omega)
      have h48 : (48 + n) % 256 = 48 + n := Nat.mod_eq_of_lt (by omega)
      simp [fmtLoop, fmtStep, padBE, listWrite, Nat.div_one, Nat.mod_one,
        h256, h48, pow_zero, hpos, h0, List.dropWhile_cons]
  | succ m ihm =>
    intro buf p n hn
    have hpow : (0:ℕ) < 10 ^ (m + 1) := pow_pos (by norm_num) _
    have hdigit : n / 10 ^ (m + 1) < 10 :=
      Nat.div_lt_of_lt_mul (by rw [← pow_succ]; exact hn)
    rw [fmtLoop, dif_pos hpow]
    have hdiv : 10 ^ (m + 1) / 10 = 10 ^ m := by
      rw [pow_succ]
      exact Nat.mul_div_cancel _ (by norm_num)
    rw [hdiv]
    by_cases hd : n / 10 ^ (m + 1) = 0
    · have hlt : n < 10 ^ (m + 1) := (Nat.div_eq_zero_iff hpow).mp hd
      have hstep : fmtStep (10 ^ (m + 1)) ⟨buf, p, n, false⟩ =
          ⟨buf, p, n, false⟩ := by
        simp [fmtStep, hd, Nat.mod_eq_of_lt hlt]
      rw [hstep, ihm buf p n hlt]
      simp only [padBE, hd, Nat.mod_eq_of_lt hlt, List.dropWhile_cons,
        beq_self_eq_true, if_true]
    · have hdpos : 0 < n / 10 ^ (m + 1) := Nat.pos_of_ne_zero hd
      have hnpos : 0 < n := by
        rcases Nat.eq_zero_or_pos n with h | h
        · exact absurd (by simp [h]) hd
        · exact h
      have hstep : fmtStep (10 ^ (m + 1)) ⟨buf, p, n, false⟩ =
          ⟨buf.set p (48 + n / 10 ^ (m + 1)), p + 1, n % 10 ^ (m + 1),
            true⟩ := by
        simp [fmtStep, Nat.mod_eq_of_lt (show n / 10 ^ (m + 1) < 256 by omega),
          Nat.mod_eq_of_lt (show 48 + n / 10 ^ (m + 1) < 256 by omega), hdpos]
      rw [hstep]
      rw [fmtLoop_started m (buf.set p (48 + n / 10 ^ (m + 1))) (p + 1)
        (n % 10 ^ (m + 1)) (Nat.mod_lt _ hpow)]
      have hne : ((n / 10 ^ (m + 1) : Nat) == 0) = false := by simp [hd]
      simp only [padBE, List.dropWhile_cons, hne, if_false, List.map_cons,
        listWrite, List.length_cons, padBE_length, FmtState.mk.injEq,
        Bool.false_eq_true, true_and, and_true, hnpos, decide_eq_true_eq]
      constructor
      · omega
      · simp [hnpos]

/-- C10: the decimal-formatting loop of the counter example fills
buffer[0..pos] with exactly the base-10 ASCII digits of the u32 counter
value — digit bytes in [48,57] whose big-endian value is the counter, a
single b'0' for zero and no leading zero otherwise — with pos ≤ 10, so
every buffer index used by the formatting and the subsequent write loops
stays inside the 16-byte array. -/
theorem counter_format_digits (counter : Nat) (h : counter < 4294967296) :
    (counterFormat counter).2 ≤ 10 ∧ 0 < (counterFormat counter).2 ∧
    (counterFormat counter).1.length = 16 ∧
    (∀ d ∈ (counterFormat counter).1.take (counterFormat counter).2,
      48 ≤ d ∧ d ≤ 57) ∧
    ofDigitsBE (((counterFormat counter).1.take
      (counterFormat counter).2).map (fun d => d - 48)) = counter ∧
    (0 < counter → (counterFormat counter).1.headD 0 ≠ 48) ∧
    (counter = 0 → (counterFormat counter).2 = 1 ∧
      (counterFormat counter).1.headD 0 = 48) := by
  by_cases h0 : counter = 0
  · subst h0
    decide
  · have hpos : 0 < counter := Nat.pos_of_ne_zero h0
    have hlt : counter < 10 ^ 10 := lt_trans h (by norm_num)
    have hten : (1000000000 : ℕ) = 10 ^ 9 := by norm_num
    obtain ⟨L, hLdef⟩ :
        ∃ L, (padBE 10 counter).dropWhile (fun d => d == 0) = L := ⟨_, rfl⟩
    have hcf : counterFormat counter =
        (listWrite (List.replicate 16 0) 0 (L.map (fun d => 48 + d)),
          0 + L.length) := by
      simp only [counterFormat]
      rw [if_neg h0, hten,
        fmtLoop_unstarted 9 (List.replicate 16 0) 0 counter (by simpa using hlt)]
      rw [show (9 + 1 : Nat) = 10 from rfl, hLdef]
    have hLlen : L.length ≤ 10 := by
      rw [← hLdef]
      exact le_trans (List.dropWhile_sublist _).length_le
        (le_of_eq (padBE_length 10 counter))
    have hLval : ofDigitsBE L = counter := by
      rw [← hLdef, ofDigitsBE_dropWhile_zero]
      exact ofDigitsBE_padBE 10 counter hlt
    have hLne : L ≠ [] := by
      intro hnil
      rw [hnil] at hLval
      simp only [ofDigitsBE] at hLval
      omega
    have hLpos : 0 < L.length := List.length_pos.mpr hLne
    have hLdig : ∀ e ∈ L, e < 10 := by
      intro e he
      apply padBE_digit_lt 10 counter hlt
      rw [← hLdef] at he
      exact (List.dropWhile_sublist _).subset he
    have hmaplen : (L.map (fun d => 48 + d)).length = L.length :=
      List.length_map _ _
    have hwr : listWrite (List.replicate 16 0) 0 (L.map (fun d => 48 + d)) =
        L.map (fun d => 48 + d) ++
          (List.replicate 16 0).drop (L.length) := by
      have hle : 0 + (L.map (fun d => 48 + d)).length ≤
          (List.replicate (16:Nat) (0:Nat)).length := by
        simp [hmaplen]
        omega
      have := listWrite_eq (L.map (fun d => 48 + d)) (List.replicate 16 0) 0 hle
      simpa [hmaplen] using this
    have htake : (listWrite (List.replicate 16 0) 0
        (L.map (fun d => 48 + d))).take L.length = L.map (fun d => 48 + d) := by
      rw [hwr, ← hmaplen, List.take_left]
    rw [hcf]
    simp only [Nat.zero_add]
    refine ⟨hLlen, hLpos, ?_, ?_, ?_, ?_, fun hc0 => absurd hc0 h0⟩
    · rw [listWrite_length]
      simp
    · rw [htake]
      intro d hd
      rw [List.mem_map] at hd
      obtain ⟨e, heL, rfl⟩ := hd
      have := hLdig e heL
      omega
    · rw [htake, List.map_map]
      have hid : L.map ((fun d => d - 48) ∘ (fun d => 48 + d)) = L := by
        apply List.map_id''
        intro x
        simp
      rw [hid, hLval]
    · intro hcpos
      rw [hwr]
      cases hL : L with
      | nil => exact absurd hL hLne
      | cons e L0 =>
        have he0 : e ≠ 0 := by
          apply dropWhile_zero_head_ne (padBE 10 counter) e L0
          rw [hLdef, hL]
        simp only [hL, List.map_cons, List.cons_append, List.headD_cons]
        omega

/-- Witness for counter_format_digits: counter value 12345 formats within
bounds to the digit string of 12345. -/
theorem counter_format_digits_witness :
    (12345 : Nat) < 4294967296 ∧
    ((counterFormat 12345).2 ≤ 10 ∧ 0 < (counterFormat 12345).2 ∧
     (counterFormat 12345).1.length = 16 ∧
     (∀ d ∈ (counterFormat 12345).1.take (counterFormat 12345).2,
       48 ≤ d ∧ d ≤ 57) ∧
     ofDigitsBE (((counterFormat 12345).1.take
       (counterFormat 12345).2).map (fun d => d - 48)) = 12345 ∧
     (0 < 12345 → (counterFormat 12345).1.headD 0 ≠ 48) ∧
     ((12345 : Nat) = 0 → (counterFormat 12345).2 = 1 ∧
       (counterFormat 12345).1.headD 0 = 48)) :=
  ⟨by decide, counter_format_digits 12345 (by decide)⟩

end GroveSpec
